import Mathlib

/-!
Shallow embedding of the POS backend's order lifecycle and pricing core
(src/controllers/orderController.js and the order-controller section of
src/controllers/vendorStaffController.js), together with theorems settling
the frozen claims about it.

Modelling conventions:
- MongoDB ObjectIds are modelled as `Nat`; a Mongo collection is a `List`
  and `Model.find(pred)` / `Model.findOne(pred)` become `List.filter` /
  `List.find?`.
- JS numbers used for money and quantities are modelled as `Rat`
  (exact values; the binary floating-point nature of JS numbers is outside
  this embedding).
- A possibly-absent field is an `Option`; JS truthiness of a number field
  is "present and nonzero" (`numTruthy`), of an id field "present"
  (ObjectId values are always truthy).
- Request handlers become pure functions from their inputs plus the
  relevant collections to a result inductive mirroring the distinct
  response branches of the JS code; handlers that write return the updated
  order collection as well (failing branches return it unchanged, since
  the JS code returns before `save()`).
-/

/-- A document of the MenuItem collection, restricted to the fields the
order core reads (`_id`, `vendorId`, `price`, `name`). -/
structure MenuItem where
  id : Nat
  vendorId : Nat
  price : Rat
  name : String
deriving DecidableEq

/-- A line entry of an order's `items` array. `menuItemId` and
`itemTableNumber` are `Option` because client input may omit them;
`name` starts absent and is denormalized by `calculateTotalAmount`.
`addons` and `notes` are carried for fidelity but never read by the core. -/
structure LineItem where
  menuItemId : Option Nat
  name : Option String
  quantity : Rat
  itemTableNumber : Option Int
  addons : List String
  notes : Option String
deriving DecidableEq

/-- A document of the Order collection. `updatedAt` is the
persistence-layer timestamp (milliseconds) used by the reporting query. -/
structure Order where
  id : Nat
  vendorId : Nat
  tableNumber : Int
  items : List LineItem
  status : String
  server : Nat
  totalAmount : Rat
  updatedAt : Nat
deriving DecidableEq

/-- The authenticated identity attached to a request by the auth
middleware: `req.user.id`, `req.user.role`, `req.user.vendorId`. -/
structure UserCtx where
  id : Nat
  role : String
  vendorId : Nat
deriving DecidableEq

/-- JS truthiness of an optional numeric field: truthy iff present and
nonzero (`!tableNumber`, `item.itemTableNumber`). -/
def numTruthy : Option Int → Bool
  | some v => v ≠ 0
  | none => false

/-- Per-line validation used by both `createOrder` and `addItemsToOrder`:
`item.menuItemId && item.quantity > 0 && item.itemTableNumber`. -/
def itemValid (it : LineItem) : Bool :=
  it.menuItemId.isSome && decide (0 < it.quantity) && numTruthy it.itemTableNumber

/-- The catalog query of `calculateTotalAmount`:
`MenuItem.find({ _id: { $in: itemIds }, vendorId })`. -/
def foundItems (items : List LineItem) (vendorId : Nat) (catalog : List MenuItem) :
    List MenuItem :=
  catalog.filter fun m =>
    decide (some m.id ∈ items.map LineItem.menuItemId ∧ m.vendorId = vendorId)

/-- The `priceMap` built by `menuItems.reduce(...)`, looked up at one key:
a left fold in which a later matching document overwrites an earlier one,
exactly as the JS object assignment does. -/
def priceMapLookup (found : List MenuItem) (mid : Option Nat) : Option MenuItem :=
  found.foldl (fun acc m => if some m.id = mid then some m else acc) none

/-- One iteration of the `items.forEach` body: if the line's id resolves in
the price map, denormalize the name onto the line and produce its subtotal
`quantity * price`; otherwise leave the line alone and contribute nothing. -/
def processItem (found : List MenuItem) (it : LineItem) : LineItem × Rat :=
  match priceMapLookup found it.menuItemId with
  | some m => ({ it with name := some m.name }, it.quantity * m.price)
  | none => (it, 0)

/-- The subtotal a line contributes to the accumulated total. -/
def lineSubtotal (found : List MenuItem) (it : LineItem) : Rat :=
  (processItem found it).2

/-- `calculateTotalAmount(items, vendorId)` (identical in both controller
files): fetch the catalog entries, fail when the number of documents found
differs from the number of requested ids (with multiplicity), otherwise
return the accumulated total together with the name-denormalized lines
(the JS code mutates `items` in place; the pure embedding returns the
mutated list). -/
def calculateTotalAmount (items : List LineItem) (vendorId : Nat)
    (catalog : List MenuItem) : Except String (Rat × List LineItem) :=
  let itemIds := items.map LineItem.menuItemId
  let menuItems := foundItems items vendorId catalog
  if menuItems.length ≠ itemIds.length then
    .error "One or more menu items are invalid or unavailable."
  else
    .ok (((items.map (processItem menuItems)).map Prod.snd).sum,
         (items.map (processItem menuItems)).map Prod.fst)

/-- Outcome of `createOrder`, one constructor per distinct response branch
(400 invalid input, 400 invalid reference, 201 created). -/
inductive CreateResult where
  | invalidInput
  | invalidReference
  | created (o : Order)
deriving DecidableEq

/-- `createOrder` (identical in both controller files): validate, price,
persist a new order with status `Kitchen`, server and vendor taken from
the authenticated identity. `newId` and `now` stand for the
persistence-assigned `_id` and timestamp. -/
def createOrder (tableNumber : Option Int) (items : List LineItem)
    (user : UserCtx) (catalog : List MenuItem) (newId now : Nat) : CreateResult :=
  if ¬ numTruthy tableNumber ∨ items.isEmpty then
    .invalidInput
  else if ¬ items.all itemValid then
    .invalidInput
  else
    match calculateTotalAmount items user.vendorId catalog with
    | .error _ => .invalidReference
    | .ok (total, named) =>
        .created { id := newId, vendorId := user.vendorId,
                   tableNumber := tableNumber.getD 0, items := named,
                   status := "Kitchen", server := user.id,
                   totalAmount := total, updatedAt := now }

/-- Outcome of `getOrderById`. -/
inductive GetResult where
  | notFound
  | ok (o : Order)
deriving DecidableEq

/-- `Order.findOne({ _id: orderId, vendorId })`, the tenant-scoped lookup
shared by `getOrderById`, `updateStatus` and `addItemsToOrder`. -/
def findOrder (orderId vendorId : Nat) (db : List Order) : Option Order :=
  db.find? fun o => decide (o.id = orderId ∧ o.vendorId = vendorId)

/-- `getOrderById` (identical in both controller files). -/
def getOrderById (vendorId orderId : Nat) (db : List Order) : GetResult :=
  match findOrder orderId vendorId db with
  | none => .notFound
  | some o => .ok o

/-- `order.save()` after mutating a fetched document: the document with
that `_id` is replaced in the collection. -/
def saveOrder (o : Order) (db : List Order) : List Order :=
  db.map fun x => if x.id = o.id then o else x

/-- The role-to-status authorization matrix (`allowedTransitions`),
identical in both controller files; a role absent from the literal maps to
`none` (JS `undefined`). -/
def allowedTransitions (role : String) : Option (List String) :=
  if role = "Kitchen" then some ["Ready"]
  else if role = "Server" then some ["Served"]
  else if role = "Billing" then some ["Billed", "Completed"]
  else if role = "Vendor" then
    some ["Pending", "Kitchen", "Ready", "Served", "Billed", "Completed"]
  else none

/-- `allowedTransitions[userRole]?.includes(newStatus)` with JS optional
chaining: an absent role yields `undefined`, hence `false`. -/
def statusAllowed (role newStatus : String) : Bool :=
  match allowedTransitions role with
  | some l => l.contains newStatus
  | none => false

/-- Outcome of `updateStatus`, one constructor per response branch. -/
inductive UpdResult where
  | forbidden
  | notFound
  | invalidState
  | ok (o : Order)
deriving DecidableEq

namespace OrderController

/-- `updateStatus` of src/controllers/orderController.js: the guard
`order.status === 'Completed' || order.status === 'Billed'` freezes
Completed and Billed orders for every role, the Vendor included. -/
def updateStatus (newStatus : String) (user : UserCtx) (orderId : Nat)
    (db : List Order) : UpdResult × List Order :=
  if newStatus = "" ∨ ¬ statusAllowed user.role newStatus then
    (.forbidden, db)
  else
    match findOrder orderId user.vendorId db with
    | none => (.notFound, db)
    | some order =>
        if order.status = "Completed" ∨ order.status = "Billed" then
          (.invalidState, db)
        else
          let o := { order with status := newStatus }
          (.ok o, saveOrder o db)

end OrderController

namespace VendorStaffController

/-- `updateStatus` of src/controllers/vendorStaffController.js: the guard
`order.status === 'Completed' && userRole !== 'Vendor'` freezes Completed
orders for staff but lets the Vendor reset any status. -/
def updateStatus (newStatus : String) (user : UserCtx) (orderId : Nat)
    (db : List Order) : UpdResult × List Order :=
  if newStatus = "" ∨ ¬ statusAllowed user.role newStatus then
    (.forbidden, db)
  else
    match findOrder orderId user.vendorId db with
    | none => (.notFound, db)
    | some order =>
        if order.status = "Completed" ∧ user.role ≠ "Vendor" then
          (.invalidState, db)
        else
          let o := { order with status := newStatus }
          (.ok o, saveOrder o db)

end VendorStaffController

/-- Outcome of `addItemsToOrder`, one constructor per response branch. -/
inductive AddResult where
  | invalidInput
  | notFound
  | invalidState
  | invalidReference
  | ok (o : Order)
deriving DecidableEq

/-- The mutation block of `addItemsToOrder` (vendorStaffController.js lines
768-774): append the priced lines, add their subtotal to the running
total, and reset status to `Kitchen` unless it is already `Kitchen` or
`Pending`. -/
def appendedOrder (order : Order) (named : List LineItem) (newTotal : Rat) : Order :=
  let o1 : Order := { order with items := order.items ++ named,
                                 totalAmount := order.totalAmount + newTotal }
  if o1.status ≠ "Kitchen" ∧ o1.status ≠ "Pending" then
    { o1 with status := "Kitchen" }
  else o1

/-- `addItemsToOrder` of src/controllers/vendorStaffController.js: validate
the new lines, fetch the order in vendor scope, refuse Completed/Billed
orders, price the new lines only, then apply `appendedOrder` and save. -/
def addItemsToOrder (orderId : Nat) (newItems : List LineItem) (user : UserCtx)
    (catalog : List MenuItem) (db : List Order) : AddResult × List Order :=
  if newItems.isEmpty then (.invalidInput, db)
  else if ¬ newItems.all itemValid then (.invalidInput, db)
  else
    match findOrder orderId user.vendorId db with
    | none => (.notFound, db)
    | some order =>
        if order.status = "Completed" ∨ order.status = "Billed" then
          (.invalidState, db)
        else
          match calculateTotalAmount newItems user.vendorId catalog with
          | .error _ => (.invalidReference, db)
          | .ok (newTotal, named) =>
              (.ok (appendedOrder order named newTotal),
               saveOrder (appendedOrder order named newTotal) db)

/-- `endOfDay.setHours(23, 59, 59, 999)` applied to the parsed `endDate`:
with `d` the millisecond timestamp of that date's midnight, the end of the
day is `d + 86399999` ms. -/
def endOfDayMs (d : Nat) : Nat := d + 86399999

/-- Response body of `getCompletedOrders` (`totalSales.toFixed(2)` is
serialization-time formatting; the accumulated value itself is kept). -/
structure CompletedReport where
  count : Nat
  totalSales : Rat
  orders : List Order
deriving DecidableEq

/-- `getCompletedOrders` of src/controllers/vendorStaffController.js:
vendor-scoped `Billed`/`Completed` orders, with the `updatedAt` range
applied only when `startDate && endDate` are both supplied (the query
dates are the millisecond timestamps of the parsed dates' midnights),
sorted newest-updated first. -/
def getCompletedOrders (vendorId : Nat) (startDate endDate : Option Nat)
    (db : List Order) : CompletedReport :=
  let base := db.filter fun o =>
    decide (o.vendorId = vendorId ∧ (o.status = "Billed" ∨ o.status = "Completed"))
  let filtered :=
    match startDate, endDate with
    | some s, some e =>
        base.filter fun (o : Order) =>
          decide (s ≤ o.updatedAt ∧ o.updatedAt ≤ endOfDayMs e)
    | _, _ => base
  let sorted := filtered.insertionSort fun a b => b.updatedAt ≤ a.updatedAt
  { count := sorted.length,
    totalSales := (sorted.map Order.totalAmount).sum,
    orders := sorted }

/-- Condition of spec section 4.2 in its own words, for comparison with the
code: the number of distinct menu items returned by the catalog lookup
differs from the number of distinct ids requested. -/
def specDistinctMismatch (items : List LineItem) (vendorId : Nat)
    (catalog : List MenuItem) : Prop :=
  ((foundItems items vendorId catalog).map MenuItem.id).dedup.length ≠
    (items.map LineItem.menuItemId).dedup.length

/-- Whether `calculateTotalAmount` rejects the batch. -/
def calcFailed (items : List LineItem) (vendorId : Nat)
    (catalog : List MenuItem) : Bool :=
  match calculateTotalAmount items vendorId catalog with
  | .error _ => true
  | .ok _ => false

/-- Fixture: a client line entry with the given id, quantity and table. -/
def sampleItem (mid : Nat) (q : Rat) (tbl : Int) : LineItem :=
  ⟨some mid, none, q, some tbl, [], none⟩

/-- Fixture: a two-item catalog of vendor 3. -/
def sampleCatalog : List MenuItem :=
  [⟨1, 3, 100, "Dosa"⟩, ⟨2, 3, 50, "Chai"⟩]

/-- Fixture: a Completed order of vendor 3. -/
def completedOrder : Order :=
  ⟨10, 3, 5, [sampleItem 1 2 5], "Completed", 7, 200, 1000⟩

/-- Fixture: a Ready order of vendor 3. -/
def readyOrder : Order :=
  ⟨11, 3, 5, [sampleItem 1 2 5], "Ready", 7, 200, 1500⟩

lemma statusAllowed_empty (r : String) : statusAllowed r "" = false := by
  unfold statusAllowed allowedTransitions
  by_cases h1 : r = "Kitchen" <;> by_cases h2 : r = "Server" <;>
    by_cases h3 : r = "Billing" <;> by_cases h4 : r = "Vendor" <;>
      simp [h1, h2, h3, h4]

lemma ne_empty_of_statusAllowed {r s : String} (h : statusAllowed r s = true) :
    s ≠ "" := by
  intro hs
  rw [hs, statusAllowed_empty] at h
  exact Bool.false_ne_true h

lemma isEmpty_false_of_ne_nil {l : List LineItem} (h : l ≠ []) :
    l.isEmpty = false := by
  cases l with
  | nil => exact absurd rfl h
  | cons a l => rfl

lemma findOrder_eq_none {orderId vendorId : Nat} {db : List Order}
    (h : ∀ o ∈ db, o.id = orderId → o.vendorId ≠ vendorId) :
    findOrder orderId vendorId db = none := by
  rw [findOrder, List.find?_eq_none]
  intro o ho
  simp only [decide_eq_true_eq, not_and]
  intro hid
  exact h o ho hid

/-- C5: a status-transition request whose requested status is outside the
caller role's allowed set (including roles absent from the matrix, whose
allowed set is empty) fails with Forbidden in both controller variants,
for every state of the order collection, which is returned unchanged: the
rejection happens before any order lookup or modification. -/
theorem role_matrix_rejection_precedes_lookup
    (newStatus : String) (user : UserCtx) (orderId : Nat) (db : List Order)
    (h : statusAllowed user.role newStatus = false) :
    OrderController.updateStatus newStatus user orderId db = (.forbidden, db) ∧
    VendorStaffController.updateStatus newStatus user orderId db = (.forbidden, db) := by
  constructor <;>
    simp [OrderController.updateStatus, VendorStaffController.updateStatus, h]

/-- Witness for C5: the Server role requesting Billed is rejected as
Forbidden in both variants, with the store untouched. -/
theorem role_matrix_rejection_witness :
    OrderController.updateStatus "Billed" ⟨7, "Server", 3⟩ 10 [completedOrder]
      = (.forbidden, [completedOrder]) ∧
    VendorStaffController.updateStatus "Billed" ⟨7, "Server", 3⟩ 10 [completedOrder]
      = (.forbidden, [completedOrder]) :=
  role_matrix_rejection_precedes_lookup "Billed" ⟨7, "Server", 3⟩ 10
    [completedOrder] (by decide)

/-- C6: when every order carrying the requested id belongs to a different
vendor than the caller (which subsumes the case where no order carries the
id at all), get-by-id, both status-transition variants and add-items all
answer NotFound with the store unchanged, and get-by-id answers exactly as
it would on a store from which the id is absent entirely. -/
theorem cross_tenant_lookup_is_not_found
    (user : UserCtx) (orderId : Nat) (db : List Order) (catalog : List MenuItem)
    (ns : String) (newItems : List LineItem)
    (hiso : ∀ o ∈ db, o.id = orderId → o.vendorId ≠ user.vendorId) :
    getOrderById user.vendorId orderId db = .notFound ∧
    getOrderById user.vendorId orderId db =
      getOrderById user.vendorId orderId
        (db.filter fun o => decide (o.id ≠ orderId)) ∧
    (statusAllowed user.role ns = true →
      OrderController.updateStatus ns user orderId db = (.notFound, db) ∧
      VendorStaffController.updateStatus ns user orderId db = (.notFound, db)) ∧
    (newItems ≠ [] → newItems.all itemValid = true →
      addItemsToOrder orderId newItems user catalog db = (.notFound, db)) := by
  have hnone : findOrder orderId user.vendorId db = none := findOrder_eq_none hiso
  have hnone2 : findOrder orderId user.vendorId
      (db.filter fun o => decide (o.id ≠ orderId)) = none := by
    apply findOrder_eq_none
    intro o ho hid
    rw [List.mem_filter, decide_eq_true_eq] at ho
    exact absurd hid ho.2
  refine ⟨?_, ?_, ?_, ?_⟩
  · simp [getOrderById, hnone]
  · unfold getOrderById
    rw [hnone, hnone2]
  · intro hns
    have hne := ne_empty_of_statusAllowed hns
    constructor <;>
      simp [OrderController.updateStatus, VendorStaffController.updateStatus,
        hns, hne, hnone]
  · intro hne hval
    simp [addItemsToOrder, isEmpty_false_of_ne_nil hne, hval, hnone]

/-- Witness for C6: order 10 exists but belongs to vendor 3; a caller of
vendor 4 gets NotFound from all four operations. -/
theorem cross_tenant_lookup_witness :
    getOrderById 4 10 [completedOrder] = .notFound ∧
    getOrderById 4 10 [completedOrder] =
      getOrderById 4 10
        ([completedOrder].filter fun o => decide (o.id ≠ 10)) ∧
    (statusAllowed "Server" "Served" = true →
      OrderController.updateStatus "Served" ⟨7, "Server", 4⟩ 10 [completedOrder]
        = (.notFound, [completedOrder]) ∧
      VendorStaffController.updateStatus "Served" ⟨7, "Server", 4⟩ 10
        [completedOrder] = (.notFound, [completedOrder])) ∧
    ([sampleItem 2 1 5] ≠ [] → [sampleItem 2 1 5].all itemValid = true →
      addItemsToOrder 10 [sampleItem 2 1 5] ⟨7, "Server", 4⟩ sampleCatalog
        [completedOrder] = (.notFound, [completedOrder])) :=
  cross_tenant_lookup_is_not_found ⟨7, "Server", 4⟩ 10 [completedOrder]
    sampleCatalog "Served" [sampleItem 2 1 5] (by decide)

/-- C10: the updatedAt range of the completed/reporting query is applied
only when both dates are supplied: with exactly one date the report is the
same as with no dates at all, containing every Billed/Completed order of
the vendor; with both dates the report contains exactly the Billed or
Completed orders of the vendor whose updatedAt lies between the start
timestamp and the final millisecond of the end date's day. -/
theorem completed_report_date_filtering
    (vendorId s e : Nat) (db : List Order) (o : Order) :
    getCompletedOrders vendorId (some s) none db =
      getCompletedOrders vendorId none none db ∧
    getCompletedOrders vendorId none (some e) db =
      getCompletedOrders vendorId none none db ∧
    (o ∈ (getCompletedOrders vendorId (some s) none db).orders ↔
      o ∈ db ∧ o.vendorId = vendorId ∧
        (o.status = "Billed" ∨ o.status = "Completed")) ∧
    (o ∈ (getCompletedOrders vendorId (some s) (some e) db).orders ↔
      o ∈ db ∧ o.vendorId = vendorId ∧
        (o.status = "Billed" ∨ o.status = "Completed") ∧
        s ≤ o.updatedAt ∧ o.updatedAt ≤ e + 86399999) := by
  refine ⟨rfl, rfl, ?_, ?_⟩
  · unfold getCompletedOrders
    rw [(List.perm_insertionSort _ _).mem_iff, List.mem_filter]
    simp [and_assoc]
  · unfold getCompletedOrders
    rw [(List.perm_insertionSort _ _).mem_iff, List.mem_filter,
      List.mem_filter]
    simp [endOfDayMs, and_assoc]

lemma foldl_lookup_isSome_acc (mid : Option Nat) :
    ∀ (l : List MenuItem) (acc : Option MenuItem), acc.isSome = true →
      (l.foldl (fun a m => if some m.id = mid then some m else a) acc).isSome
        = true := by
  intro l
  induction l with
  | nil => intro acc h; exact h
  | cons x l ih =>
      intro acc h
      rw [List.foldl_cons]
      by_cases hx : some x.id = mid
      · exact ih _ (by simp [hx])
      · exact ih _ (by simp [hx, h])

lemma foldl_lookup_isSome_of_mem (mid : Option Nat) (m : MenuItem)
    (hm : some m.id = mid) :
    ∀ (l : List MenuItem) (acc : Option MenuItem), m ∈ l →
      (l.foldl (fun a m => if some m.id = mid then some m else a) acc).isSome
        = true := by
  intro l
  induction l with
  | nil => intro acc h; cases h
  | cons x l ih =>
      intro acc h
      rw [List.foldl_cons]
      rcases List.mem_cons.mp h with rfl | h
      · exact foldl_lookup_isSome_acc mid l _ (by simp [hm])
      · exact ih _ h

lemma priceMapLookup_isSome {found : List MenuItem} {mid : Option Nat}
    (h : ∃ m ∈ found, some m.id = mid) :
    (priceMapLookup found mid).isSome = true := by
  obtain ⟨m, hmem, hid⟩ := h
  exact foldl_lookup_isSome_of_mem mid m hid found none hmem

lemma mem_foundItems {items : List LineItem} {vendorId : Nat}
    {catalog : List MenuItem} {m : MenuItem} (hm : m ∈ catalog)
    (hid : some m.id ∈ items.map LineItem.menuItemId)
    (hv : m.vendorId = vendorId) :
    m ∈ foundItems items vendorId catalog := by
  rw [foundItems, List.mem_filter, decide_eq_true_eq]
  exact ⟨hm, hid, hv⟩

/-- C1: if a create-order request produces a created order, and every
line's menuItemId resolves in the caller's vendor catalog, then the order
carries status Kitchen, the caller's id as server, the caller's vendorId,
and a total equal to the sum over the lines of quantity times the resolved
unit price; moreover every line's id indeed resolves in the price map the
code builds. -/
theorem created_order_shape
    (tableNumber : Option Int) (items : List LineItem) (user : UserCtx)
    (catalog : List MenuItem) (newId now : Nat) (o : Order)
    (hres : ∀ it ∈ items, ∃ m ∈ catalog,
      some m.id = it.menuItemId ∧ m.vendorId = user.vendorId)
    (h : createOrder tableNumber items user catalog newId now = .created o) :
    o.status = "Kitchen" ∧ o.server = user.id ∧ o.vendorId = user.vendorId ∧
    o.totalAmount =
      (items.map (lineSubtotal (foundItems items user.vendorId catalog))).sum ∧
    items.all (fun it =>
      (priceMapLookup (foundItems items user.vendorId catalog)
        it.menuItemId).isSome) = true := by
  unfold createOrder at h
  split at h
  · cases h
  · split at h
    · cases h
    · revert h
      cases hc : calculateTotalAmount items user.vendorId catalog with
      | error msg => intro h; cases h
      | ok p =>
          obtain ⟨total, named⟩ := p
          intro h
          injection h with ho
          subst ho
          refine ⟨rfl, rfl, rfl, ?_, ?_⟩
          · simp only [calculateTotalAmount] at hc
            split at hc
            · cases hc
            · have := (Except.ok.injEq _ _).mp hc
              have htot : total =
                  ((items.map
                    (processItem (foundItems items user.vendorId catalog))).map
                      Prod.snd).sum := by
                have := congrArg Prod.fst this.symm
                simpa using this
              rw [htot, List.map_map]
              rfl
          · rw [List.all_eq_true]
            intro it hit
            obtain ⟨m, hmem, hid, hv⟩ := hres it hit
            exact priceMapLookup_isSome
              ⟨m, mem_foundItems hmem
                (hid ▸ List.mem_map_of_mem LineItem.menuItemId hit) hv,
                hid⟩

unseal Rat.add Rat.mul in
/-- Witness for C1: a concrete request for two portions at unit price 100
yields a Kitchen order for server 7 of vendor 3 totalling 200. -/
theorem created_order_shape_witness :
    (Order.status ⟨0, 3, 5, [⟨some 1, some "Dosa", 2, some 5, [], none⟩],
        "Kitchen", 7, 200, 0⟩ = "Kitchen" ∧
      Order.server ⟨0, 3, 5, [⟨some 1, some "Dosa", 2, some 5, [], none⟩],
        "Kitchen", 7, 200, 0⟩ = (7 : Nat) ∧
      Order.vendorId ⟨0, 3, 5, [⟨some 1, some "Dosa", 2, some 5, [], none⟩],
        "Kitchen", 7, 200, 0⟩ = (3 : Nat) ∧
      Order.totalAmount ⟨0, 3, 5, [⟨some 1, some "Dosa", 2, some 5, [], none⟩],
        "Kitchen", 7, 200, 0⟩ =
        ([sampleItem 1 2 5].map
          (lineSubtotal (foundItems [sampleItem 1 2 5] 3 sampleCatalog))).sum ∧
      List.all [sampleItem 1 2 5] (fun it =>
        (priceMapLookup (foundItems [sampleItem 1 2 5] 3 sampleCatalog)
          it.menuItemId).isSome) = true) :=
  created_order_shape (some 5) [sampleItem 1 2 5] ⟨7, "Server", 3⟩
    sampleCatalog 0 0 _ (by decide) (by decide)

lemma appendedOrder_items (order : Order) (named : List LineItem) (t : Rat) :
    (appendedOrder order named t).items = order.items ++ named := by
  simp only [appendedOrder]
  split <;> rfl

lemma appendedOrder_total (order : Order) (named : List LineItem) (t : Rat) :
    (appendedOrder order named t).totalAmount = order.totalAmount + t := by
  simp only [appendedOrder]
  split <;> rfl

lemma appendedOrder_status_reset (order : Order) (named : List LineItem)
    (t : Rat) (h1 : order.status ≠ "Kitchen") (h2 : order.status ≠ "Pending") :
    (appendedOrder order named t).status = "Kitchen" := by
  simp [appendedOrder, h1, h2]

lemma addItems_invalidState {orderId : Nat} {newItems : List LineItem}
    {user : UserCtx} {catalog : List MenuItem} {db : List Order} {order : Order}
    (hempty : newItems.isEmpty = false) (hval : newItems.all itemValid = true)
    (hfind : findOrder orderId user.vendorId db = some order)
    (hstat : order.status = "Billed" ∨ order.status = "Completed") :
    addItemsToOrder orderId newItems user catalog db = (.invalidState, db) := by
  rcases hstat with hs | hs <;>
    simp [addItemsToOrder, hempty, hval, hfind, hs]

lemma addItems_ok_eq {orderId : Nat} {newItems : List LineItem}
    {user : UserCtx} {catalog : List MenuItem} {db : List Order} {order : Order}
    {t : Rat} {named : List LineItem}
    (hempty : newItems.isEmpty = false) (hval : newItems.all itemValid = true)
    (hfind : findOrder orderId user.vendorId db = some order)
    (hs1 : order.status ≠ "Completed") (hs2 : order.status ≠ "Billed")
    (hcalc : calculateTotalAmount newItems user.vendorId catalog = .ok (t, named)) :
    addItemsToOrder orderId newItems user catalog db =
      (.ok (appendedOrder order named t), saveOrder (appendedOrder order named t) db) := by
  simp [addItemsToOrder, hempty, hval, hfind, hs1, hs2, hcalc]

lemma addItems_invalidRef {orderId : Nat} {newItems : List LineItem}
    {user : UserCtx} {catalog : List MenuItem} {db : List Order} {order : Order}
    {msg : String}
    (hempty : newItems.isEmpty = false) (hval : newItems.all itemValid = true)
    (hfind : findOrder orderId user.vendorId db = some order)
    (hs1 : order.status ≠ "Completed") (hs2 : order.status ≠ "Billed")
    (hcalc : calculateTotalAmount newItems user.vendorId catalog = .error msg) :
    addItemsToOrder orderId newItems user catalog db = (.invalidReference, db) := by
  simp [addItemsToOrder, hempty, hval, hfind, hs1, hs2, hcalc]

/-- C3: on a valid add-items request for an order in the caller's vendor
scope, a Billed or Completed order is refused with InvalidState and the
store is unchanged; a Ready order (with resolvable lines) is updated and
its resulting status is Kitchen; and in general every successful add on an
order whose prior status is neither Kitchen nor Pending results in status
Kitchen. -/
theorem add_items_lifecycle_guard
    (orderId : Nat) (newItems : List LineItem) (user : UserCtx)
    (catalog : List MenuItem) (db : List Order) (order : Order) (t : Rat)
    (named : List LineItem) (o2 : Order) (db2 : List Order)
    (hne : newItems ≠ []) (hval : newItems.all itemValid = true)
    (hfind : findOrder orderId user.vendorId db = some order) :
    ((order.status = "Billed" ∨ order.status = "Completed") →
      addItemsToOrder orderId newItems user catalog db = (.invalidState, db)) ∧
    (order.status = "Ready" →
      calculateTotalAmount newItems user.vendorId catalog = .ok (t, named) →
      addItemsToOrder orderId newItems user catalog db =
        (.ok (appendedOrder order named t),
         saveOrder (appendedOrder order named t) db) ∧
      (appendedOrder order named t).status = "Kitchen") ∧
    (order.status ≠ "Kitchen" → order.status ≠ "Pending" →
      addItemsToOrder orderId newItems user catalog db = (.ok o2, db2) →
      o2.status = "Kitchen") := by
  have hempty := isEmpty_false_of_ne_nil hne
  refine ⟨?_, ?_, ?_⟩
  · exact addItems_invalidState hempty hval hfind
  · intro hready hcalc
    refine ⟨addItems_ok_eq hempty hval hfind ?_ ?_ hcalc, ?_⟩
    · rw [hready]; decide
    · rw [hready]; decide
    · exact appendedOrder_status_reset _ _ _ (by rw [hready]; decide)
        (by rw [hready]; decide)
  · intro hk hp heq
    by_cases hstat : order.status = "Billed" ∨ order.status = "Completed"
    · rw [addItems_invalidState hempty hval hfind hstat] at heq
      simp at heq
    · push_neg at hstat
      cases hc : calculateTotalAmount newItems user.vendorId catalog with
      | error msg =>
          rw [addItems_invalidRef hempty hval hfind hstat.2 hstat.1 hc] at heq
          simp at heq
      | ok p =>
          obtain ⟨t2, named2⟩ := p
          rw [addItems_ok_eq hempty hval hfind hstat.2 hstat.1 hc] at heq
          obtain ⟨ho, -⟩ := Prod.mk.injEq .. ▸ heq
          cases ho
          exact appendedOrder_status_reset _ _ _ hk hp

/-- Witness for C3: a one-line valid add-on against the Ready fixture
order of vendor 3. -/
theorem add_items_lifecycle_guard_witness :
    ((Order.status readyOrder = "Billed" ∨ Order.status readyOrder = "Completed") →
      addItemsToOrder 11 [sampleItem 2 1 5] ⟨7, "Server", 3⟩ sampleCatalog
        [readyOrder] = (.invalidState, [readyOrder])) ∧
    (Order.status readyOrder = "Ready" →
      calculateTotalAmount [sampleItem 2 1 5] 3 sampleCatalog =
        .ok (50, [⟨some 2, some "Chai", 1, some 5, [], none⟩]) →
      addItemsToOrder 11 [sampleItem 2 1 5] ⟨7, "Server", 3⟩ sampleCatalog
        [readyOrder] =
        (.ok (appendedOrder readyOrder
          [⟨some 2, some "Chai", 1, some 5, [], none⟩] 50),
         saveOrder (appendedOrder readyOrder
          [⟨some 2, some "Chai", 1, some 5, [], none⟩] 50) [readyOrder]) ∧
      (appendedOrder readyOrder
        [⟨some 2, some "Chai", 1, some 5, [], none⟩] 50).status = "Kitchen") ∧
    (Order.status readyOrder ≠ "Kitchen" → Order.status readyOrder ≠ "Pending" →
      addItemsToOrder 11 [sampleItem 2 1 5] ⟨7, "Server", 3⟩ sampleCatalog
        [readyOrder] =
        (.ok (appendedOrder readyOrder
          [⟨some 2, some "Chai", 1, some 5, [], none⟩] 50),
         saveOrder (appendedOrder readyOrder
          [⟨some 2, some "Chai", 1, some 5, [], none⟩] 50) [readyOrder]) →
      (appendedOrder readyOrder
        [⟨some 2, some "Chai", 1, some 5, [], none⟩] 50).status = "Kitchen") :=
  add_items_lifecycle_guard 11 [sampleItem 2 1 5] ⟨7, "Server", 3⟩
    sampleCatalog [readyOrder] readyOrder 50
    [⟨some 2, some "Chai", 1, some 5, [], none⟩]
    (appendedOrder readyOrder [⟨some 2, some "Chai", 1, some 5, [], none⟩] 50)
    (saveOrder (appendedOrder readyOrder
      [⟨some 2, some "Chai", 1, some 5, [], none⟩] 50) [readyOrder])
    (by decide) (by decide) (by decide)

/-- C4: every successful add-items operation yields a total equal to the
prior total plus the sum of the new lines' quantity-times-resolved-price
subtotals, appends the new (name-denormalized) lines after the existing
items sequence, and leaves the pre-existing lines — including their stored
names — untouched. -/
theorem add_items_total_additivity
    (orderId : Nat) (newItems : List LineItem) (user : UserCtx)
    (catalog : List MenuItem) (db : List Order) (order o2 : Order)
    (db2 : List Order)
    (hfind : findOrder orderId user.vendorId db = some order)
    (heq : addItemsToOrder orderId newItems user catalog db = (.ok o2, db2)) :
    o2.totalAmount = order.totalAmount +
      (newItems.map (lineSubtotal (foundItems newItems user.vendorId catalog))).sum ∧
    o2.items = order.items ++
      newItems.map (fun it =>
        (processItem (foundItems newItems user.vendorId catalog) it).1) ∧
    o2.items.take order.items.length = order.items ∧
    o2.items.drop order.items.length =
      newItems.map (fun it =>
        (processItem (foundItems newItems user.vendorId catalog) it).1) := by
  by_cases hni : newItems.isEmpty = true
  · rw [show addItemsToOrder orderId newItems user catalog db = (.invalidInput, db)
      from by simp [addItemsToOrder, hni]] at heq
    simp at heq
  · rw [Bool.not_eq_true] at hni
    by_cases hval : newItems.all itemValid = true
    · by_cases hstat : order.status = "Billed" ∨ order.status = "Completed"
      · rw [addItems_invalidState hni hval hfind hstat] at heq
        simp at heq
      · push_neg at hstat
        cases hc : calculateTotalAmount newItems user.vendorId catalog with
        | error msg =>
            rw [addItems_invalidRef hni hval hfind hstat.2 hstat.1 hc] at heq
            simp at heq
        | ok p =>
            obtain ⟨t, named⟩ := p
            rw [addItems_ok_eq hni hval hfind hstat.2 hstat.1 hc] at heq
            rw [Prod.mk.injEq] at heq
            obtain ⟨ho, -⟩ := heq
            injection ho with ho
            subst ho
            simp only [calculateTotalAmount] at hc
            split at hc
            · cases hc
            · rw [Except.ok.injEq, Prod.mk.injEq] at hc
              obtain ⟨ht, hnamed⟩ := hc
              subst ht
              subst hnamed
              have hitems : (appendedOrder order
                  ((newItems.map
                    (processItem (foundItems newItems user.vendorId catalog))).map
                      Prod.fst)
                  ((newItems.map
                    (processItem (foundItems newItems user.vendorId catalog))).map
                      Prod.snd).sum).items =
                  order.items ++ newItems.map (fun it =>
                    (processItem (foundItems newItems user.vendorId catalog) it).1) := by
                rw [appendedOrder_items, List.map_map]
                rfl
              refine ⟨?_, ?_, ?_, ?_⟩
              · rw [appendedOrder_total, List.map_map]
                rfl
              · exact hitems
              · rw [hitems, List.take_left]
              · rw [hitems, List.drop_left]
    · rw [Bool.not_eq_true] at hval
      rw [show addItemsToOrder orderId newItems user catalog db = (.invalidInput, db)
        from by by_cases h0 : newItems.isEmpty = true <;>
          simp [addItemsToOrder, h0, hval]] at heq
      simp at heq

unseal Rat.add Rat.mul in
/-- Witness for C4: adding one Chai at price 50 to the Ready fixture order
with prior total 200. -/
theorem add_items_total_additivity_witness :
    Order.totalAmount (appendedOrder readyOrder
        [⟨some 2, some "Chai", 1, some 5, [], none⟩] 50) =
      Order.totalAmount readyOrder +
      ([sampleItem 2 1 5].map
        (lineSubtotal (foundItems [sampleItem 2 1 5] 3 sampleCatalog))).sum ∧
    Order.items (appendedOrder readyOrder
        [⟨some 2, some "Chai", 1, some 5, [], none⟩] 50) =
      Order.items readyOrder ++
      [sampleItem 2 1 5].map (fun it =>
        (processItem (foundItems [sampleItem 2 1 5] 3 sampleCatalog) it).1) ∧
    (Order.items (appendedOrder readyOrder
        [⟨some 2, some "Chai", 1, some 5, [], none⟩] 50)).take
        (Order.items readyOrder).length = Order.items readyOrder ∧
    (Order.items (appendedOrder readyOrder
        [⟨some 2, some "Chai", 1, some 5, [], none⟩] 50)).drop
        (Order.items readyOrder).length =
      [sampleItem 2 1 5].map (fun it =>
        (processItem (foundItems [sampleItem 2 1 5] 3 sampleCatalog) it).1) :=
  add_items_total_additivity 11 [sampleItem 2 1 5] ⟨7, "Server", 3⟩
    sampleCatalog [readyOrder] readyOrder
    (appendedOrder readyOrder [⟨some 2, some "Chai", 1, some 5, [], none⟩] 50)
    (saveOrder (appendedOrder readyOrder
      [⟨some 2, some "Chai", 1, some 5, [], none⟩] 50) [readyOrder])
    (by decide) (by decide)

/-- Counterexample to C2: on a Completed order of the caller's vendor, a
Vendor-initiated transition to Kitchen — one of the six statuses — does
not succeed in the orderController implementation of updateStatus; it
fails with InvalidState and the store is unchanged. Moreover a non-Vendor
(Server) transition attempt whose requested status is outside the Server
allowed set fails with Forbidden, not InvalidState. -/
theorem completed_transition_counterexample :
    OrderController.updateStatus "Kitchen" ⟨9, "Vendor", 3⟩ 10 [completedOrder]
      = (.invalidState, [completedOrder]) ∧
    VendorStaffController.updateStatus "Billed" ⟨7, "Server", 3⟩ 10
      [completedOrder] = (.forbidden, [completedOrder]) := by
  constructor <;> decide

lemma statusAllowed_vendor_of_mem {ns : String}
    (h : ns ∈ ["Pending", "Kitchen", "Ready", "Served", "Billed", "Completed"]) :
    statusAllowed "Vendor" ns = true := by
  fin_cases h <;> decide

/-- C2 as amended: in the vendorStaffController implementation, a
non-Vendor caller whose requested status lies in their role's allowed set
is refused with InvalidState on a Completed order with the store
unchanged, while a Vendor caller may set a Completed order to any of the
six statuses; in the orderController implementation, a transition on a
Completed (or Billed) order fails with InvalidState for every authorized
caller including the Vendor. -/
theorem completed_transition_amended
    (newStatus : String) (user : UserCtx) (orderId : Nat) (db : List Order)
    (order : Order)
    (hfind : findOrder orderId user.vendorId db = some order)
    (hcomp : order.status = "Completed") :
    (user.role ≠ "Vendor" → statusAllowed user.role newStatus = true →
      VendorStaffController.updateStatus newStatus user orderId db
        = (.invalidState, db)) ∧
    (user.role = "Vendor" →
      newStatus ∈ ["Pending", "Kitchen", "Ready", "Served", "Billed", "Completed"] →
      VendorStaffController.updateStatus newStatus user orderId db
        = (.ok { order with status := newStatus },
           saveOrder { order with status := newStatus } db)) ∧
    (statusAllowed user.role newStatus = true →
      OrderController.updateStatus newStatus user orderId db
        = (.invalidState, db)) := by
  refine ⟨?_, ?_, ?_⟩
  · intro hrole hallow
    have hne := ne_empty_of_statusAllowed hallow
    simp [VendorStaffController.updateStatus, hallow, hne, hfind, hcomp, hrole]
  · intro hrole hmem
    have hallow : statusAllowed user.role newStatus = true := by
      rw [hrole]; exact statusAllowed_vendor_of_mem hmem
    have hne := ne_empty_of_statusAllowed hallow
    simp [VendorStaffController.updateStatus, hne, hfind, hrole,
      statusAllowed_vendor_of_mem hmem]
  · intro hallow
    have hne := ne_empty_of_statusAllowed hallow
    simp [OrderController.updateStatus, hallow, hne, hfind, hcomp]

/-- Witness for C2 (amended): a Vendor of vendor 3 moving the Completed
fixture order to Ready. -/
theorem completed_transition_amended_witness :
    ((⟨9, "Vendor", 3⟩ : UserCtx).role ≠ "Vendor" →
      statusAllowed (⟨9, "Vendor", 3⟩ : UserCtx).role "Ready" = true →
      VendorStaffController.updateStatus "Ready" ⟨9, "Vendor", 3⟩ 10
        [completedOrder] = (.invalidState, [completedOrder])) ∧
    ((⟨9, "Vendor", 3⟩ : UserCtx).role = "Vendor" →
      "Ready" ∈ ["Pending", "Kitchen", "Ready", "Served", "Billed", "Completed"] →
      VendorStaffController.updateStatus "Ready" ⟨9, "Vendor", 3⟩ 10
        [completedOrder]
        = (.ok { completedOrder with status := "Ready" },
           saveOrder { completedOrder with status := "Ready" } [completedOrder])) ∧
    (statusAllowed (⟨9, "Vendor", 3⟩ : UserCtx).role "Ready" = true →
      OrderController.updateStatus "Ready" ⟨9, "Vendor", 3⟩ 10 [completedOrder]
        = (.invalidState, [completedOrder])) :=
  completed_transition_amended "Ready" ⟨9, "Vendor", 3⟩ 10 [completedOrder]
    completedOrder (by decide) (by decide)

/-- Counterexample to C7: a batch naming the same valid catalog item twice
is rejected by price resolution even though the number of distinct catalog
items found (one) equals the number of distinct menuItemIds requested
(one) — the code compares the found count against the ids counted with
multiplicity, not against the distinct count the claim states. -/
theorem price_resolution_distinct_counterexample :
    calcFailed [sampleItem 1 1 5, sampleItem 1 1 5] 3 sampleCatalog = true ∧
    ¬ specDistinctMismatch [sampleItem 1 1 5, sampleItem 1 1 5] 3 sampleCatalog := by
  constructor
  · decide
  · unfold specDistinctMismatch
    decide

/-- C7 as amended: price resolution fails with InvalidReference iff the
number of catalog items found for the caller's vendor differs from the
total number of line entries (menuItemIds counted with multiplicity) — so
a batch with a repeated id always fails even when every id resolves; on
failure nothing is priced or denormalized (the error carries no partial
output and the store is untouched), and create-order and add-items
propagate the failure unchanged as InvalidReference. -/
theorem price_resolution_batch_rejection
    (items : List LineItem) (user : UserCtx) (catalog : List MenuItem)
    (tn : Option Int) (newId now orderId : Nat) (db : List Order)
    (order : Order) :
    (calcFailed items user.vendorId catalog = true ↔
      (foundItems items user.vendorId catalog).length ≠ items.length) ∧
    (numTruthy tn = true → items.isEmpty = false →
      items.all itemValid = true →
      calcFailed items user.vendorId catalog = true →
      createOrder tn items user catalog newId now = .invalidReference) ∧
    (items.isEmpty = false → items.all itemValid = true →
      findOrder orderId user.vendorId db = some order →
      order.status ≠ "Completed" → order.status ≠ "Billed" →
      calcFailed items user.vendorId catalog = true →
      addItemsToOrder orderId items user catalog db = (.invalidReference, db)) := by
  refine ⟨?_, ?_, ?_⟩
  · unfold calcFailed calculateTotalAmount
    by_cases hl : (foundItems items user.vendorId catalog).length =
        (items.map LineItem.menuItemId).length
    · simp [hl, List.length_map]
    · simp only [List.length_map] at hl
      simp [hl, List.length_map]
  · intro htn hemp hval hfail
    revert hfail
    unfold calcFailed
    cases hc : calculateTotalAmount items user.vendorId catalog with
    | error msg =>
        intro hfail
        simp [createOrder, htn, hemp, hval, hc]
    | ok p => intro hfail; cases hfail
  · intro hemp hval hfind hs1 hs2 hfail
    revert hfail
    unfold calcFailed
    cases hc : calculateTotalAmount items user.vendorId catalog with
    | error msg =>
        intro hfail
        exact addItems_invalidRef hemp hval hfind hs1 hs2 hc
    | ok p => intro hfail; cases hfail

/-- Witness for C7 (amended): the duplicate-id batch fails resolution, the
found count (1) differs from the line count (2), and both create-order and
add-items surface InvalidReference for it. -/
theorem price_resolution_batch_rejection_witness :
    (foundItems [sampleItem 1 1 5, sampleItem 1 1 5] 3 sampleCatalog).length ≠
      [sampleItem 1 1 5, sampleItem 1 1 5].length ∧
    createOrder (some 5) [sampleItem 1 1 5, sampleItem 1 1 5] ⟨7, "Server", 3⟩
      sampleCatalog 0 0 = .invalidReference ∧
    addItemsToOrder 11 [sampleItem 1 1 5, sampleItem 1 1 5] ⟨7, "Server", 3⟩
      sampleCatalog [readyOrder] = (.invalidReference, [readyOrder]) :=
  ⟨(price_resolution_batch_rejection [sampleItem 1 1 5, sampleItem 1 1 5]
      ⟨7, "Server", 3⟩ sampleCatalog (some 5) 0 0 11 [readyOrder]
      readyOrder).1.mp (by decide),
   (price_resolution_batch_rejection [sampleItem 1 1 5, sampleItem 1 1 5]
      ⟨7, "Server", 3⟩ sampleCatalog (some 5) 0 0 11 [readyOrder]
      readyOrder).2.1 (by decide) (by decide) (by decide) (by decide),
   (price_resolution_batch_rejection [sampleItem 1 1 5, sampleItem 1 1 5]
      ⟨7, "Server", 3⟩ sampleCatalog (some 5) 0 0 11 [readyOrder]
      readyOrder).2.2 (by decide) (by decide) (by decide) (by decide)
      (by decide) (by decide)⟩

lemma itemValid_eq_false_iff (it : LineItem) :
    itemValid it = false ↔
      (it.menuItemId = none ∨ it.quantity ≤ 0 ∨
        it.itemTableNumber = none ∨ it.itemTableNumber = some 0) := by
  unfold itemValid numTruthy
  cases hm : it.menuItemId <;> cases ht : it.itemTableNumber <;>
    simp [not_lt, imp_iff_not_or]

unseal Rat.mul Rat.add in
/-- Counterexample to C8: a create-order request whose single line entry
has itemTableNumber -1 — a negative number, hence not a positive one — is
not rejected with InvalidInput; it is accepted and the order is created,
because the code only checks JS truthiness (nonzero) of the field. -/
theorem create_validation_counterexample :
    createOrder (some 5) [⟨some 1, none, 1, some (-1), [], none⟩]
      ⟨7, "Server", 3⟩ sampleCatalog 0 0 =
      .created ⟨0, 3, 5, [⟨some 1, some "Dosa", 1, some (-1), [], none⟩],
        "Kitchen", 7, 100, 0⟩ := by
  decide

/-- C8 as amended: create-order fails with InvalidInput exactly when the
tableNumber is missing or zero (JS-falsy), the item list is empty, or some
line entry lacks a menuItemId, has quantity ≤ 0, or has a missing or zero
itemTableNumber; a negative itemTableNumber (or tableNumber) passes the
check. The rejection depends only on the request, not on the catalog: it
happens before price resolution or persistence. -/
theorem create_validation_amended
    (tn : Option Int) (items : List LineItem) (user : UserCtx)
    (catalog catalog2 : List MenuItem) (newId now : Nat) :
    (createOrder tn items user catalog newId now = .invalidInput ↔
      (numTruthy tn = false ∨ items = [] ∨ ∃ it ∈ items,
        (it.menuItemId = none ∨ it.quantity ≤ 0 ∨
          it.itemTableNumber = none ∨ it.itemTableNumber = some 0))) ∧
    ((numTruthy tn = false ∨ items = [] ∨ ∃ it ∈ items,
        (it.menuItemId = none ∨ it.quantity ≤ 0 ∨
          it.itemTableNumber = none ∨ it.itemTableNumber = some 0)) →
      createOrder tn items user catalog2 newId now = .invalidInput) := by
  have key : ∀ cat : List MenuItem,
      createOrder tn items user cat newId now = .invalidInput ↔
      (numTruthy tn = false ∨ items = [] ∨ ∃ it ∈ items,
        (it.menuItemId = none ∨ it.quantity ≤ 0 ∨
          it.itemTableNumber = none ∨ it.itemTableNumber = some 0)) := by
    intro cat
    by_cases h1 : numTruthy tn = true
    · by_cases h2 : items = []
      · subst h2
        simp [createOrder, h1]
      · have h2e : items.isEmpty = false := isEmpty_false_of_ne_nil h2
        by_cases h3 : items.all itemValid = true
        · have hnobad : ¬ ∃ it ∈ items,
              (it.menuItemId = none ∨ it.quantity ≤ 0 ∨
                it.itemTableNumber = none ∨ it.itemTableNumber = some 0) := by
            rintro ⟨it, hmem, hbad⟩
            have hvalid := List.all_eq_true.mp h3 it hmem
            rw [(itemValid_eq_false_iff it).mpr hbad] at hvalid
            exact Bool.false_ne_true hvalid
          cases hc : calculateTotalAmount items user.vendorId cat with
          | error msg =>
              simp [createOrder, h1, h2e, h3, hc, h2, hnobad]
          | ok p =>
              obtain ⟨t, named⟩ := p
              simp [createOrder, h1, h2e, h3, hc, h2, hnobad]
        · rw [Bool.not_eq_true] at h3
          obtain ⟨it, hmem, hbad⟩ := List.all_eq_false.mp h3
          have hbad2 := (itemValid_eq_false_iff it).mp
            (Bool.eq_false_iff.mpr hbad)
          have : createOrder tn items user cat newId now = .invalidInput := by
            simp [createOrder, h1, h3]
          simp only [this, true_iff]
          exact Or.inr (Or.inr ⟨it, hmem, hbad2⟩)
    · rw [Bool.not_eq_true] at h1
      simp [createOrder, h1]
  exact ⟨key catalog, fun h => (key catalog2).mpr h⟩

/-- Witness for C8 (amended): a line with quantity 0 is rejected with
InvalidInput against the empty catalog, showing the catalog plays no part. -/
theorem create_validation_amended_witness :
    createOrder (some 5) [⟨some 1, none, 0, some 5, [], none⟩]
      ⟨7, "Server", 3⟩ [] 0 0 = .invalidInput :=
  (create_validation_amended (some 5) [⟨some 1, none, 0, some 5, [], none⟩]
    ⟨7, "Server", 3⟩ sampleCatalog [] 0 0).2 (by decide)
